import Mathlib

/-!
Verification of the storage subsystem of the firetrap FTP server
(`src/storage.rs`): the `StorageBackend` trait with its derived listing
operations (`list_fmt`, `nlst`), and the concrete `Filesystem` backend
that confines every operation to a configured root directory.

Modelling conventions:
* A disk path is a list of components (`List String`); the implicit leading
  separator of an absolute path is not stored.  A request path (`RPath`)
  additionally records whether the client wrote a leading separator, which is
  what Rust's `Path::starts_with("/")` observes.
* Platform primitives (`path_abs::PathAbs::new`, `tokio::fs::*`,
  `std::fs::metadata`) are fields of a `Platform` record: the Rust code treats
  them as black boxes, so theorems quantify over their behaviour and concrete
  witnesses instantiate them.
* Every backend operation returns its result paired with the list of
  filesystem syscalls (`FsAction`) it issued, so "no I/O is performed" is the
  statement that the action trace is empty.
* A Rust panic (`unwrap` on `None`) is modelled by an `Option`-valued
  function returning `none`.
* `u64`/`u32` quantities (sizes, uid, gid) are modelled as `Nat`: they are
  only ever read from the platform and printed, never arithmetically
  manipulated, so no overflow wrapping arises.
-/

/-- Kind carried by a platform I/O error (`std::io::ErrorKind`); the firetrap
code only ever constructs `other` and otherwise discards the kind. -/
inductive IoErrorKind where
  | notFound
  | permissionDenied
  | storageFull
  | other
deriving DecidableEq, Repr

/-- Model of `std::io::Error`: a kind plus a message. -/
structure IoError where
  kind : IoErrorKind
  msg : String
deriving DecidableEq, Repr

/-- Model of `path_abs::Error`, which wraps the underlying I/O error. -/
structure PathAbsError where
  io : IoError
deriving DecidableEq, Repr

/-- The `Error` enum of `storage.rs` (lines 433-442): exactly two variants,
no payload. -/
inductive Error where
  | IOError
  | PathError
deriving DecidableEq, Repr

/-- The `impl From<std::io::Error> for Error` (storage.rs lines 462-466):
every platform I/O error collapses to `IOError`, the payload is dropped. -/
def Error.fromIo (_e : IoError) : Error := Error.IOError

/-- The `impl From<path_abs::Error> for Error` (storage.rs lines 468-472):
every canonicalization error collapses to `PathError`. -/
def Error.fromPathAbs (_e : PathAbsError) : Error := Error.PathError

/-- File type distinguished by `std::fs::Metadata`: `is_dir`, `is_file`,
or a symbolic link (for which both are false). -/
inductive FileType where
  | regular
  | directory
  | symlink
deriving DecidableEq, Repr

/-- Model of `std::fs::Metadata` as used through the `Metadata` trait
(storage.rs lines 9-30 and 403-431): length, type, owner/group ids and the
modification time in seconds since the Unix epoch.  `modified = none` models
`Metadata::modified()` returning an error (platform timestamp unavailable). -/
structure FSNode where
  ftype : FileType
  len : Nat
  uid : Nat
  gid : Nat
  modified : Option Nat
deriving DecidableEq, Repr

/-- `Fileinfo` (storage.rs lines 35-44): a path relative to the backend root
paired with its metadata. -/
structure Fileinfo where
  path : List String
  metadata : FSNode
deriving DecidableEq, Repr

/-- A request path as handed to a backend operation: `absolute` records a
leading separator (what `Path::starts_with("/")` tests), `comps` the
remaining components. -/
structure RPath where
  absolute : Bool
  comps : List String
deriving DecidableEq, Repr

/-- A filesystem syscall issued by a backend operation, recording the
on-disk path it targets. -/
inductive FsAction where
  | symlinkMetadataA (p : List String)
  | metadataA (p : List String)
  | readDirA (p : List String)
  | openA (p : List String)
  | createA (p : List String)
  | removeA (p : List String)
  | mkdirA (p : List String)
  | renameA (src : List String) (dst : List String)
deriving DecidableEq, Repr

/-- The platform primitives the Rust code delegates to.  `pathAbs` is
`path_abs::PathAbs::new` (canonicalization: resolves `.`/`..` and symlinks,
may fail); `symlinkMetadata` is `tokio::fs::symlink_metadata` (does not
follow a final symlink); `metadata` is `std::fs::metadata` /
`tokio::fs::metadata` (follows symlinks); `readDir` yields the entry names
of a directory; `createWrite` is `File::create` followed by copying the
incoming byte stream, returning the byte count; `tzOffset` is the local
timezone offset in minutes used by `DateTime<Local>`. -/
structure Platform where
  tzOffset : Int
  pathAbs : List String → Except PathAbsError (List String)
  symlinkMetadata : List String → Except IoError FSNode
  metadata : List String → Except IoError FSNode
  readDir : List String → Except IoError (List String)
  openRead : List String → Except IoError Nat
  createWrite : List String → Except IoError Nat
  removeFile : List String → Except IoError Unit
  createDir : List String → Except IoError Unit
  renameFile : List String → List String → Except IoError Unit

/-- Rust `PathBuf::join` on an absolute base: an absolute argument replaces
the base entirely, a relative one is appended. -/
def pathJoin (base : List String) (other : RPath) : List String :=
  if other.absolute then other.comps else base ++ other.comps

/-- Rust `Path::strip_prefix` (component-based): remove `pre` from the front
of `p`, or fail if `pre` is not a component prefix. -/
def stripPrefixP (pre p : List String) : Option (List String) :=
  if pre <+: p then some (p.drop pre.length) else none

/-- The free function `canonicalize` of storage.rs (lines 227-231):
delegate to `path_abs::PathAbs::new`, converting its error through
`From<path_abs::Error>` (hence to `PathError`). -/
def canonicalize (pf : Platform) (path : List String) : Except Error (List String) :=
  match pf.pathAbs path with
  | Except.ok p => Except.ok p
  | Except.error e => Except.error (Error.fromPathAbs e)

/-- How the operating system ultimately resolves the `.` and `..` segments of
an absolute path on disk, absent symlinks: `..` steps to the parent (and stays
at the root when already there).  Used only to state where an un-canonicalized
path such as `put`'s destination actually lands. -/
def normalizeDots (p : List String) : List String :=
  p.foldl (fun acc c =>
    if c = "." then acc
    else if c = ".." then acc.dropLast
    else acc ++ [c]) []

/-- Render a component list as the usual separator-joined absolute path
string, e.g. `["srv", "ftp"]` becomes `"/srv/ftp"`. -/
def renderPath (p : List String) : String :=
  p.foldl (fun acc c => acc ++ "/" ++ c) ""

/-- The `Filesystem` backend (storage.rs lines 217-220): its only state is
the root directory. -/
structure Filesystem where
  root : List String

/-- `Filesystem::full_path` (storage.rs lines 243-264): strip a leading
separator if present (else `join` would replace the root), join to the root,
canonicalize, and require the root to be a component-wise prefix
(`Path::starts_with`) of the canonical result. -/
def Filesystem.full_path (fs : Filesystem) (pf : Platform) (path : RPath) :
    Except Error (List String) :=
  let full := if path.absolute then pathJoin fs.root ⟨false, path.comps⟩
              else pathJoin fs.root path
  match canonicalize pf full with
  | Except.ok real =>
      if fs.root <+: real then Except.ok real else Except.error Error.PathError
  | Except.error e => Except.error e

/-- `Filesystem::stat` (storage.rs lines 272-282): resolve, then
`tokio::fs::symlink_metadata`, mapping any platform failure to `IOError`. -/
def Filesystem.stat (fs : Filesystem) (pf : Platform) (path : RPath) :
    Except Error FSNode × List FsAction :=
  match fs.full_path pf path with
  | Except.error e => (Except.error e, [])
  | Except.ok fp =>
    match pf.symlinkMetadata fp with
    | Except.ok m => (Except.ok m, [FsAction.symlinkMetadataA fp])
    | Except.error _ => (Except.error Error.IOError, [FsAction.symlinkMetadataA fp])

/-- The per-entry body of `Filesystem::list`'s `filter_map` (storage.rs lines
301-313): for each entry name, `strip_prefix(root).unwrap()` the full entry
path (`none` for the whole computation models the `unwrap` panicking), then
`std::fs::metadata`; an entry whose metadata fetch fails becomes `none` and
is dropped. -/
def listEntries (pf : Platform) (root fp : List String) :
    List String → Option (List (Option Fileinfo))
  | [] => some []
  | n :: ns =>
    match stripPrefixP root (fp ++ [n]) with
    | none => none
    | some rel =>
      match listEntries pf root fp ns with
      | none => none
      | some rest =>
        some ((match pf.metadata (fp ++ [n]) with
               | Except.ok st => some { path := rel, metadata := st }
               | Except.error _ => none) :: rest)

/-- `Filesystem::list` (storage.rs lines 284-317): resolve the base path
once, enumerate the directory, and keep exactly the entries whose metadata
fetch succeeds, with paths made relative to the root.  The outer `Option` is
`none` when `strip_prefix(root).unwrap()` would panic. -/
def Filesystem.list (fs : Filesystem) (pf : Platform) (path : RPath) :
    Option (Except Error (List Fileinfo) × List FsAction) :=
  match fs.full_path pf path with
  | Except.error e => some (Except.error e, [])
  | Except.ok fp =>
    match pf.readDir fp with
    | Except.error _ => some (Except.error Error.IOError, [FsAction.readDirA fp])
    | Except.ok names =>
      match listEntries pf fs.root fp names with
      | none => none
      | some opts =>
        some (Except.ok (opts.filterMap id),
          FsAction.readDirA fp :: names.map (fun n => FsAction.metadataA (fp ++ [n])))

/-- `Filesystem::get` (storage.rs lines 319-329): resolve, then open the
file for reading ( `tokio::fs::File::open` ), mapping failure to `IOError`. -/
def Filesystem.get (fs : Filesystem) (pf : Platform) (path : RPath) :
    Except Error Nat × List FsAction :=
  match fs.full_path pf path with
  | Except.error e => (Except.error e, [])
  | Except.ok fp =>
    match pf.openRead fp with
    | Except.ok h => (Except.ok h, [FsAction.openA fp])
    | Except.error _ => (Except.error Error.IOError, [FsAction.openA fp])

/-- `Filesystem::put` (storage.rs lines 331-350): the destination path is
joined to the root exactly as in `full_path` but — unlike every other
operation — it is neither canonicalized nor containment-checked before
`File::create` writes to it.  The incoming byte stream lives inside the
platform's `createWrite`, which reports the byte count written. -/
def Filesystem.put (fs : Filesystem) (pf : Platform) (path : RPath) :
    Except Error Nat × List FsAction :=
  let full := if path.absolute then pathJoin fs.root ⟨false, path.comps⟩
              else pathJoin fs.root path
  match pf.createWrite full with
  | Except.ok n => (Except.ok n, [FsAction.createA full])
  | Except.error _ => (Except.error Error.IOError, [FsAction.createA full])

/-- `Filesystem::del` (storage.rs lines 352-358): resolve, then
`tokio::fs::remove_file`. -/
def Filesystem.del (fs : Filesystem) (pf : Platform) (path : RPath) :
    Except Error Unit × List FsAction :=
  match fs.full_path pf path with
  | Except.error e => (Except.error e, [])
  | Except.ok fp =>
    match pf.removeFile fp with
    | Except.ok _ => (Except.ok (), [FsAction.removeA fp])
    | Except.error _ => (Except.error Error.IOError, [FsAction.removeA fp])

/-- `Filesystem::mkd` (storage.rs lines 360-370): resolve, then
`tokio::fs::create_dir`. -/
def Filesystem.mkd (fs : Filesystem) (pf : Platform) (path : RPath) :
    Except Error Unit × List FsAction :=
  match fs.full_path pf path with
  | Except.error e => (Except.error e, [])
  | Except.ok fp =>
    match pf.createDir fp with
    | Except.ok _ => (Except.ok (), [FsAction.mkdirA fp])
    | Except.error _ => (Except.error Error.IOError, [FsAction.mkdirA fp])

/-- `Filesystem::rename` (storage.rs lines 372-399): resolve both endpoints,
query `tokio::fs::metadata` of the source (follows symlinks), fail with
`IOError` unless it is a regular file, otherwise `tokio::fs::rename`. -/
def Filesystem.rename (fs : Filesystem) (pf : Platform) (fr toP : RPath) :
    Except Error Unit × List FsAction :=
  match fs.full_path pf fr with
  | Except.error e => (Except.error e, [])
  | Except.ok f =>
    match fs.full_path pf toP with
    | Except.error e => (Except.error e, [])
    | Except.ok t =>
      match pf.metadata f with
      | Except.error _ => (Except.error Error.IOError, [FsAction.metadataA f])
      | Except.ok m =>
        if m.ftype = FileType.regular then
          match pf.renameFile f t with
          | Except.ok _ => (Except.ok (), [FsAction.metadataA f, FsAction.renameA f t])
          | Except.error _ =>
              (Except.error Error.IOError, [FsAction.metadataA f, FsAction.renameA f t])
        else (Except.error Error.IOError, [FsAction.metadataA f])

/-- Right-justify a string in a field of width `w` (Rust's `{:>w}` / the
default numeric alignment of `{:w}`). -/
def padLeft (s : String) (w : Nat) : String :=
  if s.length < w then "".pushn ' ' (w - s.length) ++ s else s

/-- Zero-pad a number to two digits (chrono's `%d`, `%H`, `%M`). -/
def pad2 (n : Nat) : String :=
  if n < 10 then "0" ++ Nat.repr n else Nat.repr n

/-- Abbreviated English month name (chrono's `%b`), month numbered 1-12. -/
def monthAbbrev (m : Nat) : String :=
  match m with
  | 1 => "Jan" | 2 => "Feb" | 3 => "Mar" | 4 => "Apr"
  | 5 => "May" | 6 => "Jun" | 7 => "Jul" | 8 => "Aug"
  | 9 => "Sep" | 10 => "Oct" | 11 => "Nov" | _ => "Dec"

/-- Civil calendar date (year, month, day) from a count of days since
1970-01-01, the standard era-based conversion used by date libraries such as
chrono. -/
def civilFromDays (z0 : Int) : Int × Nat × Nat :=
  let z := z0 + 719468
  let era : Int := Int.fdiv z 146097
  let doe : Nat := (z - 146097 * era).toNat
  let yoe : Nat := (doe - doe / 1460 + doe / 36524 - doe / 146096) / 365
  let doy : Nat := doe - (365 * yoe + yoe / 4 - yoe / 100)
  let mp : Nat := (5 * doy + 2) / 153
  let d : Nat := doy - (153 * mp + 2) / 5 + 1
  let m : Nat := if mp < 10 then mp + 3 else mp - 9
  ((yoe : Int) + 400 * era + (if m ≤ 2 then 1 else 0), m, d)

/-- chrono's `DateTime<Local>` formatted with `"%b %d %H:%M"` (storage.rs
line 64): convert the Unix timestamp to local time by adding the timezone
offset, then print month abbreviation, zero-padded day, hour and minute —
note the format contains no year field. -/
def fmtModified (tz : Int) (secs : Nat) : String :=
  let t : Int := (secs : Int) + 60 * tz
  let days : Int := Int.fdiv t 86400
  let rem : Nat := (t - 86400 * days).toNat
  let ymd := civilFromDays days
  monthAbbrev ymd.2.1 ++ " " ++ pad2 ymd.2.2 ++ " "
    ++ pad2 (rem / 3600) ++ ":" ++ pad2 (rem % 3600 / 60)

/-- The `Display` impl for `Fileinfo` (storage.rs lines 46-75): a failed
modified-time query falls back to the Unix epoch (`unwrap_or(UNIX_EPOCH)`),
the type marker is `d` for directories and `-` otherwise, the permission
field is the fixed placeholder, owner and group are right-justified in 12
characters, the size in 14 (`{:#14}`: the `#` flag is a no-op for integer
`Display`), then the modified time and the last path component.  The result
is `none` when the relative path has no components: the source unwraps
`components().last()`, which panics there. -/
def fmtFileinfo (tz : Int) (fi : Fileinfo) : Option String :=
  match fi.path.getLast? with
  | none => none
  | some base =>
    some ((if fi.metadata.ftype = FileType.directory then "d" else "-")
      ++ "rwxr-xr-x"
      ++ " " ++ padLeft (Nat.repr fi.metadata.uid) 12
      ++ " " ++ padLeft (Nat.repr fi.metadata.gid) 12
      ++ " " ++ padLeft (Nat.repr fi.metadata.len) 14
      ++ " " ++ fmtModified tz (fi.metadata.modified.getD 0)
      ++ " " ++ base)

/-- The accumulation loop of `StorageBackend::list_fmt` (storage.rs lines
122-129): append `format!("{}\r\n", file)` for each entry in order; `none`
models the `Display` impl panicking on an entry. -/
def collectLines (tz : Int) : List Fileinfo → Option (List String)
  | [] => some []
  | fi :: rest =>
    match fmtFileinfo tz fi with
    | none => none
    | some s =>
      match collectLines tz rest with
      | none => none
      | some ls => some ((s ++ "\r\n") :: ls)

/-- `StorageBackend::list_fmt` as inherited by `Filesystem` (storage.rs
lines 108-141): run `list`, accumulate one formatted line per entry, and map
any error of the underlying stream — whichever kind — to
`io::Error::new(ErrorKind::Other, "shut up")`. -/
def Filesystem.list_fmt (fs : Filesystem) (pf : Platform) (path : RPath) :
    Option (Except IoError String × List FsAction) :=
  match fs.list pf path with
  | none => none
  | some (Except.error _, tr) =>
      some (Except.error { kind := IoErrorKind.other, msg := "shut up" }, tr)
  | some (Except.ok files, tr) =>
    match collectLines pf.tzOffset files with
    | none => none
    | some lines => some (Except.ok (String.join lines), tr)

/-- Rust `Path::file_name`: the final component, or `none` when the path is
empty or terminates in `..`. -/
def fileName (p : List String) : Option String :=
  match p.getLast? with
  | some c => if c = ".." then none else some c
  | none => none

/-- `StorageBackend::nlst` as inherited by `Filesystem` (storage.rs lines
145-185): one line per entry holding `file_name().unwrap_or("")`, with the
same collapsing of every underlying error to the one generic I/O error. -/
def Filesystem.nlst (fs : Filesystem) (pf : Platform) (path : RPath) :
    Option (Except IoError String × List FsAction) :=
  match fs.list pf path with
  | none => none
  | some (Except.error _, tr) =>
      some (Except.error { kind := IoErrorKind.other, msg := "shut up" }, tr)
  | some (Except.ok files, tr) =>
      some (Except.ok
        (String.join (files.map (fun fi => (fileName fi.path).getD "" ++ "\r\n"))), tr)

/-- Default metadata record used by the concrete witness platforms. -/
def plainFile : FSNode :=
  { ftype := FileType.regular, len := 0, uid := 0, gid := 0, modified := some 0 }

/-- A benign platform every concrete witness starts from: canonicalization
is the identity, every query succeeds on `plainFile`, directories are empty,
writes report zero bytes. -/
def basePlatform : Platform :=
  { tzOffset := 0
    pathAbs := fun p => Except.ok p
    symlinkMetadata := fun _ => Except.ok plainFile
    metadata := fun _ => Except.ok plainFile
    readDir := fun _ => Except.ok []
    openRead := fun _ => Except.ok 0
    createWrite := fun _ => Except.ok 0
    removeFile := fun _ => Except.ok ()
    createDir := fun _ => Except.ok ()
    renameFile := fun _ _ => Except.ok () }

/-! ### Helper lemmas -/

/-- Whatever the platform's canonicalization does, a path accepted by
`full_path` has the root as a component-wise prefix: the containment check
is the last step of resolution. -/
theorem full_path_ok_prefix (fs : Filesystem) (pf : Platform) (p : RPath)
    (fp : List String) (h : fs.full_path pf p = Except.ok fp) :
    fs.root <+: fp := by
  unfold Filesystem.full_path at h
  dsimp only at h
  split at h
  · split at h
    · rename_i hpre
      cases Except.ok.inj h
      exact hpre
    · simp at h
  · simp at h

theorem stripPrefixP_of_prefix (pre p : List String) (h : pre <+: p) :
    stripPrefixP pre p = some (p.drop pre.length) := by
  unfold stripPrefixP
  exact if_pos h

/-- When the root is a prefix of the listed directory, no per-entry
`strip_prefix(root).unwrap()` can panic, and the entry sequence is exactly
the per-name metadata queries. -/
theorem listEntries_ok (pf : Platform) (root fp : List String) (h : root <+: fp)
    (names : List String) :
    listEntries pf root fp names = some (names.map (fun n =>
      match pf.metadata (fp ++ [n]) with
      | Except.ok st => some { path := (fp ++ [n]).drop root.length, metadata := st }
      | Except.error _ => none)) := by
  induction names with
  | nil => rfl
  | cons n ns ih =>
      have hpre : root <+: fp ++ [n] := h.trans (List.prefix_append fp [n])
      simp only [listEntries, stripPrefixP_of_prefix _ _ hpre, ih, List.map_cons]

/-- The relative path of every listed entry is nonempty: the entry path has
one more component than the listed directory, which itself is at least as
long as the root. -/
theorem drop_entry_ne_nil (root fp : List String) (n : String) (h : root <+: fp) :
    (fp ++ [n]).drop root.length ≠ [] := by
  have hle : root.length ≤ fp.length := h.length_le
  intro hc
  have hlen := congrArg List.length hc
  simp only [List.length_drop, List.length_append, List.length_cons,
    List.length_nil] at hlen
  omega

/-! ### C1 — root containment across operations -/

/-- Platform for the `put` escape scenario: the create-and-copy succeeds,
reporting 5 bytes written. -/
def pfEscape : Platform :=
  { basePlatform with createWrite := fun _ => Except.ok 5 }

/-- C1: the claim that every operation (including `put`) resolves to a
descendant of the root or fails with `PathError` before any I/O is violated
by `put`: with root `/srv/ftp` and destination `../escape`, `put` performs
its create syscall on `/srv/ftp/../escape` — which the operating system
resolves to `/srv/escape`, outside the root — and reports success instead of
`PathError`. -/
theorem c1_put_escapes_root :
    Filesystem.put ⟨["srv", "ftp"]⟩ pfEscape ⟨false, ["..", "escape"]⟩ =
      (Except.ok 5, [FsAction.createA ["srv", "ftp", "..", "escape"]]) ∧
    normalizeDots ["srv", "ftp", "..", "escape"] = ["srv", "escape"] ∧
    ¬ ["srv", "ftp"] <+: normalizeDots ["srv", "ftp", "..", "escape"] := by
  refine ⟨rfl, rfl, ?_⟩
  decide

/-! ### C2 — the path-resolution algorithm of `full_path` -/

/-- C2: `full_path` strips a leading separator and joins to the root (so the
resolution of `⟨true, cs⟩` and `⟨false, cs⟩` coincide, both canonicalizing
`root ++ cs`); a canonicalization failure yields `PathError`; a
canonicalization result is accepted exactly when the root is a
component-wise prefix of it — and component-wise containment rejects
`/srv/ftpx` for root `/srv/ftp` even though the rendered string `/srv/ftpx`
extends `/srv/ftp` (i.e. has it as a lexical string prefix) —
and on any resolution failure every checked operation returns the error with
an empty syscall trace. -/
theorem c2_full_path_resolution (pf : Platform) (fs : Filesystem)
    (cs real : List String) (e : PathAbsError) :
    (fs.full_path pf ⟨true, cs⟩ = fs.full_path pf ⟨false, cs⟩) ∧
    (pf.pathAbs (fs.root ++ cs) = Except.error e →
      fs.full_path pf ⟨false, cs⟩ = Except.error Error.PathError) ∧
    (pf.pathAbs (fs.root ++ cs) = Except.ok real →
      fs.full_path pf ⟨false, cs⟩ =
        if fs.root <+: real then Except.ok real else Except.error Error.PathError) ∧
    (¬ ["srv", "ftp"] <+: ["srv", "ftpx"] ∧
      renderPath ["srv", "ftpx"] = renderPath ["srv", "ftp"] ++ "x") ∧
    (∀ e2, fs.full_path pf ⟨false, cs⟩ = Except.error e2 →
      fs.stat pf ⟨false, cs⟩ = (Except.error e2, []) ∧
      fs.list pf ⟨false, cs⟩ = some (Except.error e2, []) ∧
      fs.get pf ⟨false, cs⟩ = (Except.error e2, []) ∧
      fs.del pf ⟨false, cs⟩ = (Except.error e2, []) ∧
      fs.mkd pf ⟨false, cs⟩ = (Except.error e2, []) ∧
      fs.rename pf ⟨false, cs⟩ ⟨false, cs⟩ = (Except.error e2, [])) := by
  refine ⟨rfl, ?_, ?_, ⟨by decide, by decide⟩, ?_⟩
  · intro h
    simp [Filesystem.full_path, pathJoin, canonicalize, h, Error.fromPathAbs]
  · intro h
    simp [Filesystem.full_path, pathJoin, canonicalize, h]
  · intro e2 h
    refine ⟨?_, ?_, ?_, ?_, ?_, ?_⟩ <;>
      simp [Filesystem.stat, Filesystem.list, Filesystem.get, Filesystem.del,
        Filesystem.mkd, Filesystem.rename, h]

/-- Platform whose canonicalization always fails, as when a required
ancestor of the joined path does not exist. -/
def pfCanonFail : Platform :=
  { basePlatform with
      pathAbs := fun _ => Except.error ⟨⟨IoErrorKind.notFound, ""⟩⟩ }

/-- Platform whose canonicalization lands every path outside the root,
as a symlinked escape would. -/
def pfCanonOutside : Platform :=
  { basePlatform with pathAbs := fun _ => Except.ok ["elsewhere"] }

theorem c2_full_path_resolution_witness :
    (Filesystem.full_path ⟨["srv", "ftp"]⟩ basePlatform ⟨true, ["a"]⟩ =
      Filesystem.full_path ⟨["srv", "ftp"]⟩ basePlatform ⟨false, ["a"]⟩) ∧
    (Filesystem.full_path ⟨["srv", "ftp"]⟩ pfCanonFail ⟨false, ["a"]⟩ =
      Except.error Error.PathError) ∧
    (Filesystem.full_path ⟨["srv", "ftp"]⟩ basePlatform ⟨false, ["a"]⟩ =
      Except.ok ["srv", "ftp", "a"]) ∧
    (Filesystem.stat ⟨["srv", "ftp"]⟩ pfCanonOutside ⟨false, ["a"]⟩ =
      (Except.error Error.PathError, [])) := by
  refine ⟨(c2_full_path_resolution basePlatform ⟨["srv", "ftp"]⟩ ["a"] []
      ⟨⟨IoErrorKind.other, ""⟩⟩).1, ?_, ?_, ?_⟩
  · exact (c2_full_path_resolution pfCanonFail ⟨["srv", "ftp"]⟩ ["a"] []
      ⟨⟨IoErrorKind.notFound, ""⟩⟩).2.1 rfl
  · have h := (c2_full_path_resolution basePlatform ⟨["srv", "ftp"]⟩ ["a"]
      ["srv", "ftp", "a"] ⟨⟨IoErrorKind.other, ""⟩⟩).2.2.1 rfl
    rw [h, if_pos (by decide : (["srv", "ftp"] : List String) <+: ["srv", "ftp", "a"])]
  · have hout : Filesystem.full_path ⟨["srv", "ftp"]⟩ pfCanonOutside ⟨false, ["a"]⟩ =
        Except.error Error.PathError := by
      have hnp : ¬ (["srv", "ftp"] : List String) <+: ["elsewhere"] := by decide
      simp [Filesystem.full_path, canonicalize, pfCanonOutside, basePlatform,
        pathJoin, hnp, Error.fromPathAbs]
    exact ((c2_full_path_resolution pfCanonOutside ⟨["srv", "ftp"]⟩ ["a"]
      ["elsewhere"] ⟨⟨IoErrorKind.other, ""⟩⟩).2.2.2.2 Error.PathError hout).1

/-! ### C3 — the formatted-listing line -/

/-- The metadata of the formatted-listing scenario: a regular file of size 5
owned by uid 1 / gid 2, modified at the Unix epoch. -/
def scenarioNode : FSNode :=
  { ftype := FileType.regular, len := 5, uid := 1, gid := 2, modified := some 0 }

/-- Platform for the formatted-listing scenario: UTC local time, the listed
directory holds the single entry `f` carrying `scenarioNode`. -/
def pfScenario : Platform :=
  { basePlatform with
      readDir := fun _ => Except.ok ["f"]
      metadata := fun _ => Except.ok scenarioNode }

/-- Both the counterexample and the amended statement evaluate the same
closed listing, so the evaluation is shared. -/
theorem list_fmt_scenario_eval :
    Filesystem.list_fmt ⟨["r"]⟩ pfScenario ⟨false, []⟩ =
      some (Except.ok
        "-rwxr-xr-x            1            2              5 Jan 01 00:00 f\r\n",
        [FsAction.readDirA ["r"], FsAction.metadataA ["r", "f"]]) := by
  rfl

/-- C3 (counterexample): the claimed line ends in `Jan 01 1970`, but the
code formats the modified time with `"%b %d %H:%M"` — month, day, hour and
minute, never a year — so even with the local timezone at UTC the scenario
entry `f` (regular file, uid 1, gid 2, size 5, modified at the epoch) does
not produce the claimed line. -/
theorem c3_claimed_line_not_produced :
    Filesystem.list_fmt ⟨["r"]⟩ pfScenario ⟨false, []⟩ ≠
      some (Except.ok
        "-rwxr-xr-x            1            2              5 Jan 01 1970 f\r\n",
        [FsAction.readDirA ["r"], FsAction.metadataA ["r", "f"]]) := by
  rw [list_fmt_scenario_eval]
  intro h
  have h2 := congrArg (fun x => (x.map Prod.fst)) h
  simp only [Option.map_some'] at h2
  have h3 := Except.ok.inj (Option.some.inj h2)
  exact absurd h3 (by decide)

/-- C3 (amended): the scenario entry produces exactly the line
`-rwxr-xr-x            1            2              5 Jan 01 00:00 f\r\n`
when the local timezone is UTC: type marker `-`, fixed permission
placeholder, owner and group right-justified in 12 characters, size
right-justified in 14, then the modified time as `Mon DD HH:MM` (no year)
and the basename, terminated by CRLF. -/
theorem c3_scenario_line :
    Filesystem.list_fmt ⟨["r"]⟩ pfScenario ⟨false, []⟩ =
      some (Except.ok
        "-rwxr-xr-x            1            2              5 Jan 01 00:00 f\r\n",
        [FsAction.readDirA ["r"], FsAction.metadataA ["r", "f"]]) :=
  list_fmt_scenario_eval

/-! ### C4 — rename checks both endpoints and refuses non-regular sources -/

/-- C4: `rename` resolves and containment-checks the from-path and then the
to-path (failing with the resolution error and no syscall on either
violation), then queries the metadata of the source; a metadata failure or a
source that is not a regular file yields `IOError` with no rename performed,
and a regular-file source leads to exactly the platform rename, whose
failure is also reported as `IOError`. -/
theorem c4_rename_regular_file_only (pf : Platform) (fs : Filesystem)
    (fr toP : RPath) :
    (∀ e, fs.full_path pf fr = Except.error e →
      fs.rename pf fr toP = (Except.error e, [])) ∧
    (∀ f e, fs.full_path pf fr = Except.ok f →
      fs.full_path pf toP = Except.error e →
      fs.rename pf fr toP = (Except.error e, [])) ∧
    (∀ f t e, fs.full_path pf fr = Except.ok f →
      fs.full_path pf toP = Except.ok t →
      pf.metadata f = Except.error e →
      fs.rename pf fr toP = (Except.error Error.IOError, [FsAction.metadataA f])) ∧
    (∀ f t m, fs.full_path pf fr = Except.ok f →
      fs.full_path pf toP = Except.ok t →
      pf.metadata f = Except.ok m → m.ftype ≠ FileType.regular →
      fs.rename pf fr toP = (Except.error Error.IOError, [FsAction.metadataA f])) ∧
    (∀ f t m, fs.full_path pf fr = Except.ok f →
      fs.full_path pf toP = Except.ok t →
      pf.metadata f = Except.ok m → m.ftype = FileType.regular →
      fs.rename pf fr toP =
        ((match pf.renameFile f t with
          | Except.ok _ => Except.ok ()
          | Except.error _ => Except.error Error.IOError),
         [FsAction.metadataA f, FsAction.renameA f t])) := by
  refine ⟨?_, ?_, ?_, ?_, ?_⟩
  · intro e h
    simp [Filesystem.rename, h]
  · intro f e hf ht
    simp [Filesystem.rename, hf, ht]
  · intro f t e hf ht hm
    simp [Filesystem.rename, hf, ht, hm]
  · intro f t m hf ht hm hft
    simp [Filesystem.rename, hf, ht, hm, hft]
  · intro f t m hf ht hm hft
    simp [Filesystem.rename, hf, ht, hm, hft]
    cases pf.renameFile f t <;> simp

/-- A directory node, used to exercise the non-regular branch of rename. -/
def dirNode : FSNode :=
  { ftype := FileType.directory, len := 0, uid := 0, gid := 0, modified := some 0 }

/-- Platform on which the rename source resolves to a directory. -/
def pfDirSource : Platform :=
  { basePlatform with metadata := fun _ => Except.ok dirNode }

theorem c4_rename_regular_file_only_witness :
    Filesystem.rename ⟨["r"]⟩ pfDirSource ⟨false, ["d"]⟩ ⟨false, ["e"]⟩ =
      (Except.error Error.IOError, [FsAction.metadataA ["r", "d"]]) ∧
    Filesystem.rename ⟨["r"]⟩ basePlatform ⟨false, ["a"]⟩ ⟨false, ["b"]⟩ =
      (Except.ok (), [FsAction.metadataA ["r", "a"],
        FsAction.renameA ["r", "a"] ["r", "b"]]) := by
  constructor
  · exact (c4_rename_regular_file_only pfDirSource ⟨["r"]⟩ ⟨false, ["d"]⟩
      ⟨false, ["e"]⟩).2.2.2.1 ["r", "d"] ["r", "e"] dirNode rfl rfl rfl (by decide)
  · exact (c4_rename_regular_file_only basePlatform ⟨["r"]⟩ ⟨false, ["a"]⟩
      ⟨false, ["b"]⟩).2.2.2.2 ["r", "a"] ["r", "b"] plainFile rfl rfl rfl rfl

/-! ### C5 — list omits entries whose metadata fetch fails -/

/-- Shared evaluation of a successful `list`: the resulting entries are the
per-name metadata queries that succeeded, and the trace is one enumeration
plus one metadata syscall per name. -/
theorem list_resolves_entries (pf : Platform) (fs : Filesystem)
    (p : RPath) (fp : List String) (names : List String)
    (hfp : fs.full_path pf p = Except.ok fp)
    (hrd : pf.readDir fp = Except.ok names) :
    fs.list pf p = some (Except.ok (names.filterMap (fun n =>
        match pf.metadata (fp ++ [n]) with
        | Except.ok st =>
            some { path := (fp ++ [n]).drop fs.root.length, metadata := st }
        | Except.error _ => none)),
      FsAction.readDirA fp :: names.map (fun n => FsAction.metadataA (fp ++ [n]))) := by
  have hpre := full_path_ok_prefix fs pf p fp hfp
  simp only [Filesystem.list, hfp, hrd, listEntries_ok pf fs.root fp hpre names]
  congr 2
  rw [List.filterMap_map]
  rfl

/-- C5: when the base path resolves and the directory enumeration succeeds,
`list` succeeds as a whole, and its entries are exactly the names whose
metadata fetch succeeded — each with the full entry path made relative to
the root by stripping the root prefix — while names whose metadata fetch
failed are omitted; one metadata syscall is still issued per name. -/
theorem c5_list_skips_failed_metadata (pf : Platform) (fs : Filesystem)
    (p : RPath) (fp : List String) (names : List String)
    (hfp : fs.full_path pf p = Except.ok fp)
    (hrd : pf.readDir fp = Except.ok names) :
    fs.list pf p = some (Except.ok (names.filterMap (fun n =>
        match pf.metadata (fp ++ [n]) with
        | Except.ok st =>
            some { path := (fp ++ [n]).drop fs.root.length, metadata := st }
        | Except.error _ => none)),
      FsAction.readDirA fp :: names.map (fun n => FsAction.metadataA (fp ++ [n]))) :=
  list_resolves_entries pf fs p fp names hfp hrd

/-- Platform for the C5 witness: the directory holds `good` and `bad`, and
only `good`'s metadata can be fetched. -/
def pfLossy : Platform :=
  { basePlatform with
      readDir := fun _ => Except.ok ["good", "bad"]
      metadata := fun q =>
        if q = ["r", "good"] then Except.ok plainFile
        else Except.error ⟨IoErrorKind.permissionDenied, ""⟩ }

theorem c5_list_skips_failed_metadata_witness :
    Filesystem.list ⟨["r"]⟩ pfLossy ⟨false, []⟩ =
      some (Except.ok [{ path := ["good"], metadata := plainFile }],
        [FsAction.readDirA ["r"], FsAction.metadataA ["r", "good"],
          FsAction.metadataA ["r", "bad"]]) := by
  have h := c5_list_skips_failed_metadata pfLossy ⟨["r"]⟩ ⟨false, []⟩ ["r"]
    ["good", "bad"] rfl rfl
  rw [h]
  rfl

/-! ### C6 — the two-kind error taxonomy -/

/-- C6: the error type has exactly the two variants `IOError` and
`PathError`; the conversion from a platform I/O error is the constant
`IOError` (so not-found, permission-denied and disk-full are
indistinguishable and no platform detail survives), the conversion from a
canonicalization error is the constant `PathError`; a platform failure
inside an operation (here `stat`'s metadata query) is reported as `IOError`,
and a containment violation as `PathError`. -/
theorem c6_error_taxonomy (pf : Platform) (fs : Filesystem) (p : RPath)
    (fp : List String) :
    (∀ x : Error, x = Error.IOError ∨ x = Error.PathError) ∧
    (∀ e : IoError, Error.fromIo e = Error.IOError) ∧
    (∀ e1 e2 : IoError, Error.fromIo e1 = Error.fromIo e2) ∧
    (∀ pe : PathAbsError, Error.fromPathAbs pe = Error.PathError) ∧
    (fs.full_path pf p = Except.ok fp →
      ∀ e, pf.symlinkMetadata fp = Except.error e →
        fs.stat pf p = (Except.error Error.IOError, [FsAction.symlinkMetadataA fp])) ∧
    (∀ real, pf.pathAbs (fs.root ++ p.comps) = Except.ok real →
      ¬ fs.root <+: real → p.absolute = false →
      fs.full_path pf p = Except.error Error.PathError) := by
  refine ⟨?_, fun _ => rfl, fun _ _ => rfl, fun _ => rfl, ?_, ?_⟩
  · intro x
    cases x
    · exact Or.inl rfl
    · exact Or.inr rfl
  · intro hfp e he
    simp [Filesystem.stat, hfp, he]
  · intro real hreal hout habs
    cases p with
    | mk a c =>
      cases habs
      simp [Filesystem.full_path, pathJoin, canonicalize, hreal, hout]

/-- Platform whose symlink-metadata query fails with permission denied. -/
def pfStatFail : Platform :=
  { basePlatform with
      symlinkMetadata := fun _ => Except.error ⟨IoErrorKind.permissionDenied, ""⟩ }

theorem c6_error_taxonomy_witness :
    Error.fromIo ⟨IoErrorKind.notFound, ""⟩ =
      Error.fromIo ⟨IoErrorKind.permissionDenied, ""⟩ ∧
    Filesystem.stat ⟨["r"]⟩ pfStatFail ⟨false, ["a"]⟩ =
      (Except.error Error.IOError, [FsAction.symlinkMetadataA ["r", "a"]]) ∧
    Filesystem.full_path ⟨["srv", "ftp"]⟩ pfCanonOutside ⟨false, ["a"]⟩ =
      Except.error Error.PathError := by
  refine ⟨(c6_error_taxonomy basePlatform ⟨["r"]⟩ ⟨false, []⟩ []).2.2.1
      ⟨IoErrorKind.notFound, ""⟩ ⟨IoErrorKind.permissionDenied, ""⟩, ?_, ?_⟩
  · exact (c6_error_taxonomy pfStatFail ⟨["r"]⟩ ⟨false, ["a"]⟩ ["r", "a"]).2.2.2.2.1
      rfl ⟨IoErrorKind.permissionDenied, ""⟩ rfl
  · exact (c6_error_taxonomy pfCanonOutside ⟨["srv", "ftp"]⟩ ⟨false, ["a"]⟩
      []).2.2.2.2.2 ["elsewhere"] rfl (by decide) rfl

/-! ### C7 — list_fmt and nlst collapse the error distinction -/

/-- Platform whose canonicalization fails, so `list` fails with
`PathError`. -/
def pfListPathErr : Platform :=
  { basePlatform with
      pathAbs := fun _ => Except.error ⟨⟨IoErrorKind.notFound, ""⟩⟩ }

/-- Platform whose directory enumeration fails, so `list` fails with
`IOError`. -/
def pfListIoErr : Platform :=
  { basePlatform with
      readDir := fun _ => Except.error ⟨IoErrorKind.permissionDenied, ""⟩ }

/-- C7 (counterexample): on one platform `list` fails with `PathError`, on
the other with `IOError`, yet `list_fmt` (and likewise `nlst`) reports the
identical error value — `ErrorKind::Other` with message `"shut up"` — in
both cases, so a caller of the derived listings cannot determine which of
the two kinds occurred. -/
theorem c7_distinction_lost :
    (Filesystem.list ⟨["r"]⟩ pfListPathErr ⟨false, []⟩).map Prod.fst =
      some (Except.error Error.PathError) ∧
    (Filesystem.list ⟨["r"]⟩ pfListIoErr ⟨false, []⟩).map Prod.fst =
      some (Except.error Error.IOError) ∧
    (Filesystem.list_fmt ⟨["r"]⟩ pfListPathErr ⟨false, []⟩).map Prod.fst =
      (Filesystem.list_fmt ⟨["r"]⟩ pfListIoErr ⟨false, []⟩).map Prod.fst ∧
    (Filesystem.nlst ⟨["r"]⟩ pfListPathErr ⟨false, []⟩).map Prod.fst =
      (Filesystem.nlst ⟨["r"]⟩ pfListIoErr ⟨false, []⟩).map Prod.fst := by
  exact ⟨rfl, rfl, rfl, rfl⟩

/-- C7 (amended): `list_fmt` and `nlst` do not preserve the
`PathError`/`IOError` distinction of the underlying `list` failure: every
failure, of either kind, is reported to the caller as the single generic
I/O error with kind `Other` and message `"shut up"`. -/
theorem c7_every_error_collapsed (pf : Platform) (fs : Filesystem) (p : RPath)
    (e : Error) (tr : List FsAction)
    (h : fs.list pf p = some (Except.error e, tr)) :
    fs.list_fmt pf p =
      some (Except.error { kind := IoErrorKind.other, msg := "shut up" }, tr) ∧
    fs.nlst pf p =
      some (Except.error { kind := IoErrorKind.other, msg := "shut up" }, tr) := by
  constructor
  · simp [Filesystem.list_fmt, h]
  · simp [Filesystem.nlst, h]

theorem c7_every_error_collapsed_witness :
    Filesystem.list_fmt ⟨["r"]⟩ pfListPathErr ⟨false, []⟩ =
      some (Except.error { kind := IoErrorKind.other, msg := "shut up" }, []) ∧
    Filesystem.nlst ⟨["r"]⟩ pfListPathErr ⟨false, []⟩ =
      some (Except.error { kind := IoErrorKind.other, msg := "shut up" }, []) :=
  c7_every_error_collapsed pfListPathErr ⟨["r"]⟩ ⟨false, []⟩ Error.PathError [] rfl

/-! ### C8 — panic freedom -/

/-- C8 (counterexample): a listing entry whose relative path has no
components makes the `Display` impl panic — it unwraps
`components().last()`, which is `None` there — modelled as the formatter
returning `none` instead of a line, so formatting such an entry aborts
rather than returning a value or an error. -/
theorem c8_empty_path_entry_panics :
    fmtFileinfo 0 { path := [], metadata := plainFile } = none := rfl

theorem fmtFileinfo_isSome_of_ne_nil (tz : Int) (fi : Fileinfo)
    (h : fi.path ≠ []) : (fmtFileinfo tz fi).isSome := by
  unfold fmtFileinfo
  cases hgl : fi.path.getLast? with
  | none => exact absurd (List.getLast?_eq_none_iff.mp hgl) h
  | some b => simp

theorem collectLines_isSome (tz : Int) (L : List Fileinfo)
    (h : ∀ fi ∈ L, fi.path ≠ []) : (collectLines tz L).isSome := by
  induction L with
  | nil => simp [collectLines]
  | cons fi rest ih =>
      obtain ⟨s, hs⟩ := Option.isSome_iff_exists.mp
        (fmtFileinfo_isSome_of_ne_nil tz fi (h fi (by simp)))
      obtain ⟨ls, hls⟩ := Option.isSome_iff_exists.mp
        (ih (fun x hx => h x (by simp [hx])))
      simp [collectLines, hs, hls]

/-- C8 (amended): through the `Filesystem` backend no panic is reachable:
for every platform behavior, root and request path, `list` (whose per-entry
`strip_prefix(root).unwrap()` is protected by the containment check),
`list_fmt` (whose per-entry basename unwrap is protected because every
produced relative path has at least one component) and `nlst` all return a
value or an error; the panicking empty-relative-path entry of the
counterexample is never produced by `list`. -/
theorem c8_filesystem_operations_no_panic (pf : Platform) (fs : Filesystem)
    (p : RPath) :
    (fs.list pf p).isSome ∧ (fs.list_fmt pf p).isSome ∧ (fs.nlst pf p).isSome := by
  cases hfp : fs.full_path pf p with
  | error e =>
      simp [Filesystem.list, Filesystem.list_fmt, Filesystem.nlst, hfp]
  | ok fp =>
    have hpre := full_path_ok_prefix fs pf p fp hfp
    cases hrd : pf.readDir fp with
    | error e =>
        simp [Filesystem.list, Filesystem.list_fmt, Filesystem.nlst, hfp, hrd]
    | ok names =>
      have hlist : fs.list pf p = some (Except.ok ((names.map (fun n =>
          match pf.metadata (fp ++ [n]) with
          | Except.ok st =>
              some { path := (fp ++ [n]).drop fs.root.length, metadata := st }
          | Except.error _ => none)).filterMap id),
          FsAction.readDirA fp ::
            names.map (fun n => FsAction.metadataA (fp ++ [n]))) := by
        simp only [Filesystem.list, hfp, hrd,
          listEntries_ok pf fs.root fp hpre names]
      have hne : ∀ fi : Fileinfo, fi ∈ (names.map (fun n =>
          (match pf.metadata (fp ++ [n]) with
          | Except.ok st =>
              some { path := (fp ++ [n]).drop fs.root.length, metadata := st }
          | Except.error _ => none : Option Fileinfo))).filterMap id →
          fi.path ≠ [] := by
        intro fi hfi
        obtain ⟨o, ho, hoe⟩ := List.mem_filterMap.mp hfi
        obtain ⟨n, _, hn⟩ := List.mem_map.mp ho
        cases hm : pf.metadata (fp ++ [n]) with
        | ok st =>
            rw [hm] at hn
            rw [← hn] at hoe
            cases Option.some.inj hoe
            exact drop_entry_ne_nil fs.root fp n hpre
        | error e =>
            rw [hm] at hn
            rw [← hn] at hoe
            cases hoe
      obtain ⟨ls, hls⟩ := Option.isSome_iff_exists.mp
        (collectLines_isSome pf.tzOffset _ hne)
      rw [List.filterMap_map, Function.id_comp] at hls
      refine ⟨by simp [hlist], ?_, ?_⟩
      · simp [Filesystem.list_fmt, hlist, hls]
      · simp [Filesystem.nlst, hlist]

/-! ### C9 — unavailable modified time falls back to the epoch -/

/-- C9: an entry whose modified-time query failed is neither dropped nor an
error in the formatted listing: the `Display` impl substitutes the Unix
epoch (`unwrap_or(UNIX_EPOCH)`), so the entry formats to exactly the line it
would have with a modified time of the epoch, and formatting succeeds. -/
theorem c9_modified_failure_formats_as_epoch (tz : Int) (c : String)
    (rest : List String) (node : FSNode) (h : node.modified = none) :
    fmtFileinfo tz { path := c :: rest, metadata := node } =
      fmtFileinfo tz
        { path := c :: rest, metadata := { node with modified := some 0 } } ∧
    (fmtFileinfo tz { path := c :: rest, metadata := node }).isSome := by
  constructor
  · simp [fmtFileinfo, h]
  · exact fmtFileinfo_isSome_of_ne_nil tz _ (by simp)

/-- The scenario metadata with the modified-time query failing. -/
def noModNode : FSNode := { scenarioNode with modified := none }

theorem c9_modified_failure_formats_as_epoch_witness :
    fmtFileinfo 0 { path := ["f"], metadata := noModNode } =
      fmtFileinfo 0
        { path := ["f"], metadata := { noModNode with modified := some 0 } } ∧
    (fmtFileinfo 0 { path := ["f"], metadata := noModNode }).isSome :=
  c9_modified_failure_formats_as_epoch 0 "f" [] noModNode rfl

/-! ### C10 — stat does not follow the final symlink; list and rename do -/

/-- C10: `stat` queries `symlink_metadata` on the resolved path and returns
exactly its answer — the metadata of the link itself, never following a
final symlink — while `rename`'s regular-file gate is decided by the
symlink-following `metadata` query, and `list`'s per-entry records come from
the symlink-following `metadata` query as well. -/
theorem c10_stat_link_metadata (pf : Platform) (fs : Filesystem)
    (p q : RPath) (fp : List String) (nl nf : FSNode)
    (hfp : fs.full_path pf p = Except.ok fp)
    (hsl : pf.symlinkMetadata fp = Except.ok nl)
    (hm : pf.metadata fp = Except.ok nf) :
    fs.stat pf p = (Except.ok nl, [FsAction.symlinkMetadataA fp]) ∧
    (∀ t, fs.full_path pf q = Except.ok t → nf.ftype = FileType.regular →
      fs.rename pf p q = ((match pf.renameFile fp t with
        | Except.ok _ => Except.ok ()
        | Except.error _ => Except.error Error.IOError),
        [FsAction.metadataA fp, FsAction.renameA fp t])) ∧
    (∀ t, fs.full_path pf q = Except.ok t → nf.ftype ≠ FileType.regular →
      fs.rename pf p q = (Except.error Error.IOError, [FsAction.metadataA fp])) ∧
    (∀ names, pf.readDir fp = Except.ok names →
      fs.list pf p = some (Except.ok (names.filterMap (fun n =>
          match pf.metadata (fp ++ [n]) with
          | Except.ok st =>
              some { path := (fp ++ [n]).drop fs.root.length, metadata := st }
          | Except.error _ => none)),
        FsAction.readDirA fp ::
          names.map (fun n => FsAction.metadataA (fp ++ [n])))) := by
  refine ⟨?_, ?_, ?_, ?_⟩
  · simp [Filesystem.stat, hfp, hsl]
  · intro t ht hreg
    simp [Filesystem.rename, hfp, ht, hm, hreg]
    cases pf.renameFile fp t <;> simp
  · intro t ht hnreg
    simp [Filesystem.rename, hfp, ht, hm, hnreg]
  · intro names hrd
    exact list_resolves_entries pf fs p fp names hfp hrd

/-- The metadata of a symbolic link itself. -/
def linkNode : FSNode :=
  { ftype := FileType.symlink, len := 9, uid := 0, gid := 0, modified := some 0 }

/-- Platform on which the queried path is a symlink to a regular file:
`symlinkMetadata` reports the link itself, the following `metadata` reports
the regular target. -/
def pfSymlink : Platform :=
  { basePlatform with
      symlinkMetadata := fun _ => Except.ok linkNode
      metadata := fun _ => Except.ok plainFile }

theorem c10_stat_link_metadata_witness :
    Filesystem.stat ⟨["r"]⟩ pfSymlink ⟨false, ["l"]⟩ =
      (Except.ok linkNode, [FsAction.symlinkMetadataA ["r", "l"]]) ∧
    Filesystem.rename ⟨["r"]⟩ pfSymlink ⟨false, ["l"]⟩ ⟨false, ["m"]⟩ =
      (Except.ok (), [FsAction.metadataA ["r", "l"],
        FsAction.renameA ["r", "l"] ["r", "m"]]) ∧
    linkNode ≠ plainFile := by
  have h := c10_stat_link_metadata pfSymlink ⟨["r"]⟩ ⟨false, ["l"]⟩ ⟨false, ["m"]⟩
    ["r", "l"] linkNode plainFile rfl rfl rfl
  exact ⟨h.1, h.2.1 ["r", "m"] rfl rfl, by decide⟩
